import Mathlib

/-!
Shallow embedding of the Video-Scribe transcription pipeline (src/app.py),
with theorems checking the specification's claims about segmentation,
credential dispatch, the per-segment transcription loop, reassembly of the
timestamped transcript, progress reporting, and temporary-file cleanup.

Conventions of the embedding:
* Durations and positions are natural numbers of milliseconds, exactly as the
  audio library reports them (`len(audio)`); the stored dictionary fields
  `start_time` / `end_time` are whole seconds, as computed by the source.
* A media file is modelled by its audio duration together with a flag saying
  whether the audio library can decode and process it; `decodes = false`
  stands for `AudioSegment.from_file` (or any later library call inside the
  same `try` block) raising an exception.
* The outcome of one `openai.Audio.transcribe` call is `Except String String`:
  `Except.ok text` on success, `Except.error e` when the call raises.
* Streamlit's `st.stop()` aborts the script run, so everything after it is
  modelled as simply not happening.
-/

namespace VideoScribe

/-- An uploaded media file as the audio library sees it: total duration of its
audio track in milliseconds, and whether decoding/processing it succeeds
(`decodes = false` models the library raising an exception). -/
structure MediaFile where
  duration_ms : ℕ
  decodes : Bool
  deriving DecidableEq

/-- One segment record as built by `segment_audio` (src/app.py lines 52-62).
`win_start`/`win_end` are the bounds, in milliseconds of the original
timeline, of the slice `audio[i : i + segment_length_ms]` (the audio library
clamps the slice at the end of the track). `start_time`/`end_time` are the
fields stored in the segment dictionary, in whole seconds:
`i // 1000` and `min((i + segment_length_ms) // 1000, total_duration // 1000)`. -/
structure Seg where
  win_start : ℕ
  win_end : ℕ
  start_time : ℕ
  end_time : ℕ
  deriving DecidableEq

/-- The body of `segment_audio` after a successful decode (src/app.py
lines 46-64): `segment_length_ms = segment_duration_minutes * 60 * 1000`, and
the loop `for i in range(0, total_duration, segment_length_ms)` visits
`i = j * segment_length_ms` for `j < ⌈total_duration / segment_length_ms⌉`. -/
def segment_audio_core (total_duration minutes : ℕ) : List Seg :=
  let segment_length_ms := minutes * 60 * 1000
  (List.range ((total_duration + segment_length_ms - 1) / segment_length_ms)).map fun j =>
    { win_start := j * segment_length_ms
      win_end := min (j * segment_length_ms + segment_length_ms) total_duration
      start_time := j * segment_length_ms / 1000
      end_time := min ((j * segment_length_ms + segment_length_ms) / 1000)
        (total_duration / 1000) }

/-- `segment_audio` (src/app.py lines 43-67): decode the file and slice it;
any exception is reported and the function returns `[]` (lines 65-67). -/
def segment_audio (f : MediaFile) (minutes : ℕ) : List Seg :=
  if f.decodes then segment_audio_core f.duration_ms minutes else []

/-- Result of `remove_silence_from_audio`: the path it returns and whether the
`except` branch ran (`st.error`). -/
structure StripResult where
  result_path : String
  error_reported : Bool
  deriving DecidableEq

/-- `remove_silence_from_audio` (src/app.py lines 17-41): on success the
condensed audio is exported to `output_path`, which is returned; on any
exception inside the `try` block the error is reported via `st.error` and the
original `audio_path` is returned unchanged (lines 39-41). -/
def remove_silence_from_audio (f : MediaFile) (audio_path output_path : String) : StripResult :=
  if f.decodes then ⟨output_path, false⟩ else ⟨audio_path, true⟩

/-- Python's `user_key_input.startswith("#")` (src/app.py line 76): true iff
the first character of the string is `#`. -/
def startsWithHash (s : String) : Bool :=
  match s.data with
  | [] => false
  | c :: _ => c == '#'

/-- Outcome of the API-key dispatch (src/app.py lines 76-85): either the
script halts at `st.stop()` (line 83), or it proceeds with `openai.api_key`
set to the given value. `none` models an environment variable that is unset
(`os.getenv` returning Python `None`). -/
inductive KeyDispatch where
  | stopped
  | proceed (apiKey : Option String)
  deriving DecidableEq

/-- The credential dispatch of src/app.py lines 76-85. A `#`-prefixed input
has its remainder (`user_key_input[1:]`) compared against `ADMIN_TOKEN`; the
Python comparison of a `str` against `None` is `False`, which the
`some _ = none` case captures. Any other input is used verbatim as the key. -/
def dispatchKey (user_key_input : String) (admin_token backend_key : Option String) :
    KeyDispatch :=
  if startsWithHash user_key_input then
    if some (user_key_input.drop 1) = admin_token then KeyDispatch.proceed backend_key
    else KeyDispatch.stopped
  else KeyDispatch.proceed (some user_key_input)

/-- Observable events of a script run that the claims talk about: a value
pushed to the progress bar, or one `openai.Audio.transcribe` call (identified
by its 0-based segment index). -/
inductive Event where
  | report (q : ℚ)
  | transcribe (i : ℕ)
  deriving DecidableEq

/-- The script from the credential dispatch on: when the dispatch stops
(`st.stop()`, line 83), nothing below line 83 runs, so the run produces no
further events; otherwise the rest of the page runs and produces whatever
events it produces. -/
def scriptRun (user_key_input : String) (admin_token backend_key : Option String)
    (rest : List Event) : List Event :=
  match dispatchKey user_key_input admin_token backend_key with
  | KeyDispatch.stopped => []
  | KeyDispatch.proceed _ => rest

/-- Progress-bar and transcription events of the segmented loop
(src/app.py lines 140-165), from iteration `i` of `n` onward: each iteration
first reports `i / len(segments)` (line 142) and then calls transcribe
(line 146), regardless of the call's outcome; after the loop
`progress_bar.progress(1.0)` runs (line 165). -/
def segLoopFrom (n i : ℕ) : List Event :=
  if _h : i < n then
    Event.report ((i : ℚ) / (n : ℚ)) :: Event.transcribe i :: segLoopFrom n (i + 1)
  else [Event.report 1]
termination_by n - i

/-- The full progress/transcription trace of the segmented loop over `n`
segments. -/
def segLoopEvents (n : ℕ) : List Event :=
  segLoopFrom n 0

/-- Python's `%02d` for a nonnegative value: zero-pad to (at least) two
digits. -/
def pad2 (n : ℕ) : String :=
  if n < 10 then "0" ++ toString n else toString n

/-- The f-string of src/app.py line 154:
`f"\n[{start_min:02d}:{start_sec:02d} - {end_min:02d}:{end_sec:02d}]\n"`,
where the minutes and seconds come from `start_time // 60`, `start_time % 60`,
`end_time // 60`, `end_time % 60` (lines 149-152) and the times are in whole
seconds. Note the f-string begins with a newline before the bracket. -/
def segment_header (start_time end_time : ℕ) : String :=
  "\n[" ++ pad2 (start_time / 60) ++ ":" ++ pad2 (start_time % 60) ++ " - "
    ++ pad2 (end_time / 60) ++ ":" ++ pad2 (end_time % 60) ++ "]\n"

/-- A transcript fragment: the source segment's stored times (whole seconds,
i.e. milliseconds integer-divided by 1000, as `segment_audio` stores them)
and the text the transcription service returned for it. -/
structure Fragment where
  start_time : ℕ
  end_time : ℕ
  text : String
  deriving DecidableEq

/-- What one successful iteration appends to `full_transcript`
(src/app.py line 155): `segment_header + transcript["text"] + "\n"`. -/
def renderFragment (f : Fragment) : String :=
  segment_header f.start_time f.end_time ++ f.text ++ "\n"

/-- Concatenation of a list of strings (empty string for the empty list). -/
def joinStrings : List String → String
  | [] => ""
  | s :: rest => s ++ joinStrings rest

/-- The `full_transcript` accumulation of src/app.py lines 137-155, applied to
an ordered fragment list: start from the empty string and append each
fragment's header, text and trailing newline in input order. This is the
Reassembler of the specification. -/
def reassemble (fs : List Fragment) : String :=
  fs.foldl (fun acc f => acc ++ renderFragment f) ""

/-- The per-fragment emission exactly as the claim words it: a header line
`[MM:SS - MM:SS]` (minutes and seconds by integer division, zero-padded to
two digits), followed by the fragment's text and a trailing newline — and
nothing else. -/
def claimRenderFragment (f : Fragment) : String :=
  "[" ++ pad2 (f.start_time / 60) ++ ":" ++ pad2 (f.start_time % 60) ++ " - "
    ++ pad2 (f.end_time / 60) ++ ":" ++ pad2 (f.end_time % 60) ++ "]\n"
    ++ f.text ++ "\n"

/-- Reassembly as the claim words it: the concatenation, in input order, of
the claim's per-fragment emissions. -/
def claimReassemble (fs : List Fragment) : String :=
  joinStrings (fs.map claimRenderFragment)

/-- The per-fragment emission as amended by the code: a newline, then the
header line `[MM:SS - MM:SS]` (minutes and seconds by integer division,
zero-padded to two digits), then the fragment's text and a trailing
newline. -/
def amendedRenderFragment (f : Fragment) : String :=
  "\n" ++ "[" ++ pad2 (f.start_time / 60) ++ ":" ++ pad2 (f.start_time % 60) ++ " - "
    ++ pad2 (f.end_time / 60) ++ ":" ++ pad2 (f.end_time % 60) ++ "]\n"
    ++ f.text ++ "\n"

/-- One on-disk segment as the transcription loop sees it: the temporary file
path created for it by `segment_audio` and its stored times in whole
seconds. -/
structure SegFile where
  path : String
  start_time : ℕ
  end_time : ℕ
  deriving DecidableEq

/-- The mutable state of the segmented transcription loop
(src/app.py lines 137-162): the accumulated `full_transcript`, the 1-based
segment numbers for which `st.error` reported a transcription failure
(line 161), and the file paths passed to `os.remove` (line 158). -/
structure LoopState where
  full_transcript : String
  errors : List ℕ
  removed : List String
  deriving DecidableEq

/-- The loop `for i, segment in enumerate(segments)` of src/app.py
lines 140-162, one iteration per segment, with its paired transcription
outcome. On success (the `try` body runs to completion): the header and text
are appended to `full_transcript` and the segment file is removed. On an
exception from the transcribe call: `st.error` records segment number `i+1`
and `continue` skips both the append and the `os.remove`. -/
def segLoopAux : ℕ → LoopState → List (SegFile × Except String String) → LoopState
  | _, st, [] => st
  | i, st, (seg, Except.ok text) :: rest =>
      segLoopAux (i + 1)
        { full_transcript :=
            st.full_transcript ++ (segment_header seg.start_time seg.end_time ++ text ++ "\n")
          errors := st.errors
          removed := st.removed ++ [seg.path] } rest
  | i, st, (_, Except.error _) :: rest =>
      segLoopAux (i + 1) { st with errors := st.errors ++ [i + 1] } rest

/-- The segmented transcription loop, started from the initial state
(`full_transcript = ""`, line 137) at index 0. -/
def segLoop (items : List (SegFile × Except String String)) : LoopState :=
  segLoopAux 0 ⟨"", [], []⟩ items

/-- The fragments of exactly the segments whose transcription succeeded, in
input order. -/
def successFragments (items : List (SegFile × Except String String)) : List Fragment :=
  items.filterMap fun p =>
    match p.2 with
    | Except.ok text => some ⟨p.1.start_time, p.1.end_time, text⟩
    | Except.error _ => none

/-- The file paths of exactly the segments whose transcription succeeded, in
input order. -/
def successPaths (items : List (SegFile × Except String String)) : List String :=
  items.filterMap fun p =>
    match p.2 with
    | Except.ok _ => some p.1.path
    | Except.error _ => none

/-- The 1-based numbers of the segments whose transcription failed, counting
from index `i`. -/
def failedIndicesFrom (i : ℕ) : List (SegFile × Except String String) → List ℕ
  | [] => []
  | (_, Except.ok _) :: rest => failedIndicesFrom (i + 1) rest
  | (_, Except.error _) :: rest => (i + 1) :: failedIndicesFrom (i + 1) rest

/-- The temporary files created during one segmented upload-processing run
(src/app.py lines 110-191): the uploaded temp file (line 113), the condensed
audio file when silence removal was requested and succeeded (lines 120-123),
and one temp file per segment (line 56). -/
def uploadRunCreated (f : MediaFile) (tmp_path condensed_path : String) (condense : Bool)
    (items : List (SegFile × Except String String)) : List String :=
  [tmp_path] ++ (if condense && f.decodes then [condensed_path] else [])
    ++ items.map fun p => p.1.path

/-- The files the same run deletes: the per-segment removals of the loop
(line 158), then the final cleanup block (lines 187-191), which removes the
uploaded temp file and, when condensing produced a distinct file, the
processed audio path. -/
def uploadRunRemoved (f : MediaFile) (tmp_path condensed_path : String) (condense : Bool)
    (items : List (SegFile × Except String String)) : List String :=
  let processed :=
    if condense then (remove_silence_from_audio f tmp_path condensed_path).result_path
    else tmp_path
  (segLoop items).removed ++ [tmp_path]
    ++ (if condense ∧ processed ≠ tmp_path then [processed] else [])

/-- The temporary files of the run still on disk after the run ends: created
but never passed to `os.remove`. -/
def runLeftover (f : MediaFile) (tmp_path condensed_path : String) (condense : Bool)
    (items : List (SegFile × Except String String)) : List String :=
  (uploadRunCreated f tmp_path condensed_path condense items).filter fun p =>
    !((uploadRunRemoved f tmp_path condensed_path condense items).contains p)

/-! ### Helper lemmas -/

lemma foldl_render_eq (fs : List Fragment) :
    ∀ acc : String,
      fs.foldl (fun a f => a ++ renderFragment f) acc
        = acc ++ joinStrings (fs.map renderFragment) := by
  induction fs with
  | nil =>
      intro acc
      simp [joinStrings, String.append_empty]
  | cons f rest ih =>
      intro acc
      simp only [List.foldl_cons, List.map_cons, joinStrings]
      rw [ih, String.append_assoc]

lemma segLoopAux_spec (items : List (SegFile × Except String String)) :
    ∀ (i : ℕ) (st : LoopState),
      segLoopAux i st items =
        ⟨st.full_transcript ++ joinStrings ((successFragments items).map renderFragment),
         st.errors ++ failedIndicesFrom i items,
         st.removed ++ successPaths items⟩ := by
  induction items with
  | nil =>
      intro i st
      simp [segLoopAux, successFragments, successPaths, failedIndicesFrom, joinStrings,
        String.append_empty]
  | cons p rest ih =>
      obtain ⟨seg, outcome⟩ := p
      intro i st
      cases outcome with
      | ok text =>
          simp only [segLoopAux]
          rw [ih]
          simp [successFragments, successPaths, failedIndicesFrom, joinStrings,
            renderFragment, List.filterMap_cons, String.append_assoc, List.append_assoc]
      | error e =>
          simp only [segLoopAux]
          rw [ih]
          simp [successFragments, successPaths, failedIndicesFrom, List.filterMap_cons,
            List.append_assoc]

lemma renderFragment_eq_amended (f : Fragment) : renderFragment f = amendedRenderFragment f := by
  have h : ("\n" ++ "[" : String) = "\n[" := rfl
  rw [renderFragment, amendedRenderFragment, segment_header, ← h]

lemma chunk_mul_lt (d L j : ℕ) (hL : 0 < L) (hj : j < (d + L - 1) / L) : j * L < d := by
  have h1 : (j + 1) * L ≤ d + L - 1 := (Nat.le_div_iff_mul_le hL).mp hj
  rw [add_mul, one_mul] at h1
  omega

lemma chunk_bound (d L : ℕ) (hL : 0 < L) : d ≤ ((d + L - 1) / L) * L := by
  have h1 : d + L - 1 < ((d + L - 1) / L + 1) * L :=
    (Nat.div_lt_iff_lt_mul hL).mp (Nat.lt_succ_self _)
  rw [add_mul, one_mul] at h1
  omega

lemma chunk_pos (d L : ℕ) (hL : 0 < L) (hd : 0 < d) : 0 < (d + L - 1) / L := by
  rw [show (0 < (d + L - 1) / L) = (1 ≤ (d + L - 1) / L) from rfl,
    Nat.le_div_iff_mul_le hL]
  omega

/-! ### Claims -/

/-- C7: if the silence-stripping operation encounters any decode/processing
error, the error is reported (`st.error`) and the original, unmodified input
track's path is returned as the operation's result, so the pipeline continues
rather than aborting. -/
theorem silence_strip_error_fallback (f : MediaFile) (audio_path output_path : String)
    (h : f.decodes = false) :
    remove_silence_from_audio f audio_path output_path = ⟨audio_path, true⟩ := by
  simp [remove_silence_from_audio, h]

/-- Witness for C7 at a concrete corrupt file. -/
theorem silence_strip_error_fallback_witness :
    remove_silence_from_audio ⟨90000, false⟩ "/tmp/upload.mp4" "/tmp/upload_condensed.mp3"
      = ⟨"/tmp/upload.mp4", true⟩ :=
  silence_strip_error_fallback ⟨90000, false⟩ "/tmp/upload.mp4" "/tmp/upload_condensed.mp3" rfl

/-- C9: reassembly is deterministic (two applications to the same fragment
sequence produce byte-identical output) and the empty fragment sequence
reassembles to the empty string. -/
theorem reassemble_deterministic_and_empty :
    (∀ fs : List Fragment, reassemble fs = reassemble fs) ∧ reassemble [] = "" :=
  ⟨fun _ => rfl, rfl⟩

/-- C10: a credential input that does not start with `#` — including the
empty string — is used verbatim as the API key and the script proceeds; no
validation happens and the stop path is not taken. -/
theorem raw_key_used_verbatim (input : String) (admin_token backend_key : Option String)
    (h : startsWithHash input = false) :
    dispatchKey input admin_token backend_key = KeyDispatch.proceed (some input) := by
  simp [dispatchKey, h]

/-- Witness for C10 at the empty input string. -/
theorem raw_key_used_verbatim_witness :
    dispatchKey "" (some "secret123") (some "sk-backend") = KeyDispatch.proceed (some "") :=
  raw_key_used_verbatim "" (some "secret123") (some "sk-backend") rfl

/-- C2: for a credential input starting with `#`, a remainder that does not
equal the configured admin token (including when none is configured) stops
the script with a credential error — the rest of the run, and in particular
every transcription call, never happens; a matching remainder makes the run
proceed with the server-held backend API key. -/
theorem admin_token_gate (input : String) (admin_token backend_key : Option String)
    (rest : List Event) (hhash : startsWithHash input = true) :
    (some (input.drop 1) ≠ admin_token →
      dispatchKey input admin_token backend_key = KeyDispatch.stopped ∧
        scriptRun input admin_token backend_key rest = []) ∧
    (some (input.drop 1) = admin_token →
      dispatchKey input admin_token backend_key = KeyDispatch.proceed backend_key) := by
  constructor
  · intro hne
    have hd : dispatchKey input admin_token backend_key = KeyDispatch.stopped := by
      simp [dispatchKey, hhash, hne]
    exact ⟨hd, by simp [scriptRun, hd]⟩
  · intro heq
    simp [dispatchKey, hhash, heq]

/-- Witness for C2: input `#wrongtoken` against configured admin token
`secret123` stops the script and produces no events at all. -/
theorem admin_token_gate_witness :
    dispatchKey "#wrongtoken" (some "secret123") (some "sk-backend") = KeyDispatch.stopped ∧
      scriptRun "#wrongtoken" (some "secret123") (some "sk-backend")
        [Event.transcribe 0] = [] :=
  (admin_token_gate "#wrongtoken" (some "secret123") (some "sk-backend")
    [Event.transcribe 0] rfl).1 (by decide)

/-- C3: in segmented mode the final transcript is exactly the reassembly of
the fragments of the successful segments, in input (chronological) order —
a failed segment contributes no fragment, its 1-based number is recorded as
an error, and processing continues through the whole segment list. -/
theorem failed_segment_skipped_and_recorded (items : List (SegFile × Except String String)) :
    (segLoop items).full_transcript = reassemble (successFragments items) ∧
    (segLoop items).errors = failedIndicesFrom 0 items := by
  have h := segLoopAux_spec items 0 ⟨"", [], []⟩
  rw [segLoop, h]
  constructor
  · rw [reassemble, foldl_render_eq, String.empty_append]
  · simp

/-- C5: counterexample — the code's reassembly output is not the claimed
concatenation of exactly a header line, text and trailing newline: each
fragment's emission begins with an extra newline before the bracket
(`segment_header` is `"\n[...]\n"`). -/
theorem reassemble_claim_counterexample :
    reassemble [⟨0, 60, "hello"⟩] ≠ claimReassemble [⟨0, 60, "hello"⟩] := by
  decide

/-- C5 (amended): reassembly emits, for each fragment in input order and
without sorting, a newline, then the header line `[MM:SS - MM:SS]` with
minutes and seconds obtained by integer division and zero-padded to two
digits, then the fragment's text and a trailing newline. -/
theorem reassemble_emits_fragments_in_order (fs : List Fragment) :
    reassemble fs = joinStrings (fs.map amendedRenderFragment) := by
  rw [reassemble, foldl_render_eq, String.empty_append]
  have h : renderFragment = amendedRenderFragment := funext renderFragment_eq_amended
  rw [h]

/-- C8: counterexample — segmenting a file of nonzero duration whose
decode raises also produces zero segments (the `except` branch of
`segment_audio` returns `[]`), so zero segments do not imply zero duration. -/
theorem segment_audio_empty_on_error :
    segment_audio ⟨120000, false⟩ 1 = [] ∧ (MediaFile.mk 120000 false).duration_ms ≠ 0 :=
  ⟨rfl, by decide⟩

/-- C8 (amended): for a positive segment length, segmentation yields an empty
segment sequence exactly when the track has zero duration or decoding/
processing raises; in particular a zero-duration track yields no segments. -/
theorem segment_audio_empty_iff (f : MediaFile) (minutes : ℕ) (hm : 0 < minutes) :
    segment_audio f minutes = [] ↔ f.duration_ms = 0 ∨ f.decodes = false := by
  have hL : 0 < minutes * 60 * 1000 := by positivity
  cases hdec : f.decodes with
  | false => simp [segment_audio, hdec]
  | true =>
      simp only [segment_audio, hdec, if_true, Bool.true_eq_false, or_false]
      rw [segment_audio_core]
      simp only [List.map_eq_nil_iff, List.range_eq_nil]
      rw [Nat.div_eq_zero_iff hL]
      omega

/-- Witness for C8 (amended) at a zero-duration track. -/
theorem segment_audio_empty_iff_witness :
    segment_audio ⟨0, true⟩ 1 = [] ↔
      (MediaFile.mk 0 true).duration_ms = 0 ∨ (MediaFile.mk 0 true).decodes = false :=
  segment_audio_empty_iff ⟨0, true⟩ 1 (by decide)

/-- C1: for a positive segment length and a track of positive known duration,
segmentation returns a nonempty ordered sequence of windows (in milliseconds
of the original timeline) that are contiguous (each window's end is the next
window's start), have strictly increasing starts, begin at 0, and end exactly
at the track's duration — the final window truncated, not padded. -/
theorem segment_audio_partitions_track (d minutes : ℕ) (hm : 0 < minutes) (hd : 0 < d) :
    segment_audio_core d minutes ≠ [] ∧
    List.Chain' (fun a b => a.win_end = b.win_start ∧ a.win_start < b.win_start)
      (segment_audio_core d minutes) ∧
    (segment_audio_core d minutes).head?.map Seg.win_start = some 0 ∧
    (segment_audio_core d minutes).getLast?.map Seg.win_end = some d := by
  have hL : 0 < minutes * 60 * 1000 := by positivity
  have hn : 0 < (d + minutes * 60 * 1000 - 1) / (minutes * 60 * 1000) :=
    chunk_pos d _ hL hd
  obtain ⟨k, hk⟩ : ∃ k,
      (d + minutes * 60 * 1000 - 1) / (minutes * 60 * 1000) = k + 1 :=
    ⟨(d + minutes * 60 * 1000 - 1) / (minutes * 60 * 1000) - 1, by omega⟩
  simp only [segment_audio_core, hk]
  refine ⟨by simp, ?_, ?_, ?_⟩
  · rw [List.chain'_map, List.chain'_range_succ]
    intro m hmk
    constructor
    · have h1 : (m + 1) * (minutes * 60 * 1000) < d := by
        refine chunk_mul_lt d _ (m + 1) hL ?_
        rw [hk]
        exact Nat.succ_lt_succ hmk
      rw [add_mul, one_mul] at h1
      simp only []
      rw [min_eq_left h1.le, Nat.succ_mul]
    · simp only []
      rw [Nat.succ_mul]
      omega
  · rw [List.head?_map, List.range_succ_eq_map]
    simp
  · rw [List.getLast?_map, List.range_succ, List.getLast?_concat]
    have h2 : d ≤ (k + 1) * (minutes * 60 * 1000) := by
      rw [← hk]
      exact chunk_bound d _ hL
    rw [add_mul, one_mul] at h2
    simp [min_eq_right h2]

/-- Witness for C1 at the specification's scenario: a 125000 ms track cut in
1-minute segments. -/
theorem segment_audio_partitions_track_witness :
    segment_audio_core 125000 1 ≠ [] ∧
    List.Chain' (fun a b => a.win_end = b.win_start ∧ a.win_start < b.win_start)
      (segment_audio_core 125000 1) ∧
    (segment_audio_core 125000 1).head?.map Seg.win_start = some 0 ∧
    (segment_audio_core 125000 1).getLast?.map Seg.win_end = some 125000 :=
  segment_audio_partitions_track 125000 1 (by decide) (by decide)

/-- C4: evaluation of the run model at the failing input — three segments of
which the second one's transcription raises, condensing off. The uploaded
temp file and the segment files of the successful segments are deleted, but
the failed segment's temp file is never passed to `os.remove` (line 158 sits
inside the `try`, after the transcribe call), so it survives the run,
contradicting the claim that every temporary artifact is deleted on every
exit path. -/
theorem failed_segment_file_never_removed :
    runLeftover ⟨125000, true⟩ "/tmp/upload.mp4" "/tmp/upload_condensed.mp3" false
      [(⟨"/tmp/seg1.mp3", 0, 60⟩, Except.ok "first"),
       (⟨"/tmp/seg2.mp3", 60, 120⟩, Except.error "network error"),
       (⟨"/tmp/seg3.mp3", 120, 125⟩, Except.ok "third")] = ["/tmp/seg2.mp3"] := by
  decide

lemma segLoopFrom_lt {n i : ℕ} (h : i < n) :
    segLoopFrom n i
      = Event.report ((i : ℚ) / (n : ℚ)) :: Event.transcribe i :: segLoopFrom n (i + 1) := by
  rw [segLoopFrom]
  simp [h]

lemma segLoopFrom_ge {n i : ℕ} (h : ¬ i < n) : segLoopFrom n i = [Event.report 1] := by
  rw [segLoopFrom]
  simp [h]

lemma segLoopFrom_decomp (n : ℕ) :
    ∀ j, j ≤ n → ∃ pre, segLoopFrom n 0 = pre ++ segLoopFrom n j := by
  intro j
  induction j with
  | zero => exact fun _ => ⟨[], rfl⟩
  | succ m ih =>
      intro hm
      obtain ⟨pre, hpre⟩ := ih (Nat.le_of_succ_le hm)
      refine ⟨pre ++ [Event.report ((m : ℚ) / (n : ℚ)), Event.transcribe m], ?_⟩
      rw [hpre, segLoopFrom_lt hm]
      simp

/-- C6: in the trace of the segmented loop, the event immediately following
the `i`-th transcription step (successful or not) is a progress report of
`(i+1) / n` — i.e. completed segments over total segments at that point of
the run; for the last step this is the final `progress(1.0)`, since
`n / n = 1`. -/
theorem progress_reported_after_each_step (n i : ℕ) (h : i < n) :
    ∃ pre post, segLoopEvents n
      = pre ++ Event.transcribe i :: Event.report ((i + 1 : ℚ) / (n : ℚ)) :: post := by
  obtain ⟨pre, hpre⟩ := segLoopFrom_decomp n i (le_of_lt h)
  by_cases h2 : i + 1 < n
  · refine ⟨pre ++ [Event.report ((i : ℚ) / (n : ℚ))],
      Event.transcribe (i + 1) :: segLoopFrom n (i + 2), ?_⟩
    rw [segLoopEvents, hpre, segLoopFrom_lt h, segLoopFrom_lt h2]
    push_cast
    simp
  · refine ⟨pre ++ [Event.report ((i : ℚ) / (n : ℚ))], [], ?_⟩
    rw [segLoopEvents, hpre, segLoopFrom_lt h, segLoopFrom_ge h2]
    have hn0 : (n : ℚ) ≠ 0 := Nat.cast_ne_zero.mpr (by omega)
    have h1 : ((i : ℚ) + 1) / (n : ℚ) = 1 := by
      rw [div_eq_one_iff_eq hn0]
      have : i + 1 = n := by omega
      exact_mod_cast congrArg (Nat.cast : ℕ → ℚ) this
    rw [h1]
    simp

/-- Witness for C6: in a three-segment run, the event right after the second
transcription step is the report `2/3`. -/
theorem progress_reported_after_each_step_witness :
    ∃ pre post, segLoopEvents 3
      = pre ++ Event.transcribe 1 :: Event.report ((1 + 1 : ℚ) / (3 : ℚ)) :: post :=
  progress_reported_after_each_step 3 1 (by decide)

end VideoScribe
